import Mathlib

/-!
# thingspeak_basic_pinmon: a shallow embedding of `src/main.cpp`

The firmware wakes, samples one input pin and the supply voltage, joins the
wireless network, posts the sample to the telemetry host and goes to deep sleep.

Modelling choices:

* Hardware and network effects are recorded, in program order, in the `log` of
  a `Device`; `Serial` diagnostics are not recorded.
* Everything the firmware reads from outside (pin level, supply reading, link
  status, clock, server behaviour) comes from a `World`.
* C strings are `List Char`; fixed-width integers are `Nat` with explicit
  reduction modulo `2 ^ width`.
* The two character arrays of `setup`, `status` and `api_command`, lie in a byte
  memory at the addresses a `Frame` gives them, so that a write past the end of
  one array shows in what follows it.
* The two `while` loops whose exit depends on the outside world or a counter
  take a fuel argument and return `none` when it runs out; the theorems show
  how much fuel suffices.
* `atoi` and `sprintf` are C library functions; they are modelled after the
  newlib implementation the ESP8266 toolchain links (32-bit `long`).
-/

namespace PinMon

/-! ## Constants (`main.cpp` lines 3-28) -/

def PIN_LED : Nat := 2
def PIN_INPUT : Nat := 4
def MAX_CONN_ATTEMPTS : Nat := 2
def MAX_CONN_TIME : Nat := 10
def DELAY_ERROR : Nat := 2000
def HTTP_TIMEOUT : Nat := 1000
def WIFI_SSID : String := "yourssidhere"
def WIFI_PASS : String := "yourpasswordhere"
def SENSOR_INDEX : Nat := 1
def STATUS_FIELD : Int := 2
def POST_PERIOD : Nat := 900
def POST_ERROR : Nat := 150
def LED_STATUS : Nat := 1
def API_KEY : String := "API_WRITE_KEY_HERE"
def API_HOST : String := "api.thingspeak.com"
def API_BODY : String := "GET /update?api_key=%s&field%u=%u"
def API_FIELD_FLOAT : String := "&field%i=%.2f"

/-- Declared size of the local buffer `status` (`char status[12]`, line 127). -/
def STATUS_SIZE : Nat := 12

/-- Declared size of the local buffer `api_command` (`char api_command[64]`, line 112). -/
def API_COMMAND_SIZE : Nat := 64

/-- Arduino pin modes used by `setup`. -/
inductive PinMode
  | OUTPUT
  | INPUT_PULLUP
  deriving DecidableEq, Repr

/-! ## C library: number parsing (`atoi`) -/

/-- C `isspace` in the "C" locale: space, `\t`, `\n`, `\v`, `\f`, `\r`. -/
def isspace (c : Char) : Bool :=
  c.toNat = 32 || (9 ≤ c.toNat && c.toNat ≤ 13)

/-- C `isdigit`. -/
def isdigit (c : Char) : Bool :=
  48 ≤ c.toNat && c.toNat ≤ 57

/-- The loop of `strtol` that accumulates decimal digits and stops at the first
character that is not a digit (the terminating NUL included). -/
def digit_run : List Char → Nat → Nat
  | [], acc => acc
  | c :: cs, acc => if isdigit c then digit_run cs (acc * 10 + (c.toNat - 48)) else acc

/-- Skipping of leading white space done by `strtol`. -/
def skip_space : List Char → List Char
  | [] => []
  | c :: cs => if isspace c then skip_space cs else c :: cs

/-- `strtol(s, NULL, 10)` with a 32-bit `long`: optional white space, optional
sign, decimal digits; a value out of range is clamped to `LONG_MAX` or
`LONG_MIN`. -/
def strtol (s : List Char) : Int :=
  match skip_space s with
  | '-' :: cs => max (-(digit_run cs 0 : Int)) (-2147483648)
  | '+' :: cs => min (digit_run cs 0 : Int) 2147483647
  | cs => min (digit_run cs 0 : Int) 2147483647

/-- `atoi(s)` is `(int) strtol(s, NULL, 10)`; `int` and `long` are both 32 bits wide. -/
def atoi (s : List Char) : Int := strtol s

/-- Conversion of an `int` to `uint32_t` (assignment to `http_response`, line 88). -/
def to_uint32 (i : Int) : Nat := (i % 4294967296).toNat

/-! ## C library: formatted output (`sprintf`) -/

/-- ASCII character of a decimal digit. -/
def digitChar (d : Nat) : Char := Char.ofNat (48 + d)

/-- Decimal digits of `n`, least significant first, pushed in front of `acc`. -/
def utoa_core : Nat → Nat → List Char → List Char
  | 0, _, acc => acc
  | fuel + 1, n, acc =>
    if n / 10 = 0 then digitChar (n % 10) :: acc
    else utoa_core fuel (n / 10) (digitChar (n % 10) :: acc)

/-- Text printed for `%u`. -/
def utoa (n : Nat) : List Char := utoa_core (n + 1) n []

/-- Text printed for `%i`. -/
def itoa (i : Int) : List Char :=
  if i < 0 then '-' :: utoa i.natAbs else utoa i.natAbs

/-- The number of hundredths nearest to `num / den`, a tie going to the even
neighbour (the rounding of `%.2f` in newlib, which works on the exact value of
the argument). -/
def round_hundredths (num den : Nat) : Nat :=
  let q := num * 100 / den
  let r := num * 100 % den
  if 2 * r < den then q
  else if den < 2 * r then q + 1
  else if q % 2 = 0 then q else q + 1

/-- Text printed for `%.2f` when the argument is the non-negative value
`num / den`: integer part, decimal point, two decimals. -/
def ftoa2 (num den : Nat) : List Char :=
  let h := round_hundredths num den
  utoa (h / 100) ++ ['.', digitChar (h / 10 % 10), digitChar (h % 10)]

/-- An argument of `sprintf`. A floating-point argument is given by its exact
value `num / den`. -/
inductive Arg
  | str (s : List Char)
  | uint (n : Nat)
  | int (i : Int)
  | float (num den : Nat)

/-- The part of `sprintf` the firmware uses: the conversions `%s`, `%u`, `%i`
and `%.2f`; every other character is copied. The result is the text written to
the destination, without the terminating NUL. -/
def sprintf : List Char → List Arg → List Char
  | '%' :: 's' :: fmt, Arg.str s :: args => s ++ sprintf fmt args
  | '%' :: 'u' :: fmt, Arg.uint n :: args => utoa n ++ sprintf fmt args
  | '%' :: 'i' :: fmt, Arg.int i :: args => itoa i ++ sprintf fmt args
  | '%' :: '.' :: '2' :: 'f' :: fmt, Arg.float n d :: args => ftoa2 n d ++ sprintf fmt args
  | c :: fmt, args => c :: sprintf fmt args
  | [], _ => []

/-! ## Character arrays in memory -/

/-- The terminating byte of a C string. -/
def NUL : Char := Char.ofNat 0

/-- Store `bytes` in memory from address `addr` on. Memory is the list of its
bytes from address 0; it grows when a store reaches past its end, the bytes in
between being NUL. A store is not limited by the declared size of the array it
starts in. -/
def poke : List Char → Nat → List Char → List Char
  | mem, 0, bytes => bytes ++ mem.drop bytes.length
  | [], addr + 1, bytes => NUL :: poke [] addr bytes
  | b :: mem, addr + 1, bytes => b :: poke mem addr bytes

/-- The C string that starts at address `addr`: the bytes up to the first NUL. -/
def cstring (mem : List Char) (addr : Nat) : List Char :=
  (mem.drop addr).takeWhile (fun c => c != NUL)

/-- The call `sprintf(dst, fmt, args)` on memory: the formatted text and its
terminating NUL are stored from `dst` on. -/
def sprintf_at (mem : List Char) (dst : Nat) (fmt : List Char) (args : List Arg) : List Char :=
  poke mem dst (sprintf fmt args ++ [NUL])

/-- The call `strcat(dst, src)` on memory: the string at `src` is read, then it
and its terminating NUL are stored from the end of the string at `dst` on. -/
def strcat (mem : List Char) (dst src : Nat) : List Char :=
  let appended := cstring mem src
  poke mem (dst + (cstring mem dst).length) (appended ++ [NUL])

/-- Addresses of the two character arrays of `setup` within its stack frame, as
the compiler lays them out. -/
structure Frame where
  /-- Address of `char status[12]` (line 127). -/
  status_at : Nat
  /-- Address of `char api_command[64]` (line 112). -/
  api_command_at : Nat
  deriving DecidableEq, Repr

/-! ## Device and world -/

/-- Effects of the firmware on the hardware and the network. -/
inductive Event
  | pinMode (pin : Nat) (mode : PinMode)
  | digitalWrite (pin level : Nat)
  | digitalRead (pin : Nat)
  | getVcc
  | wifiBegin (ssid psk : String)
  | delay (ms : Nat)
  | connect (host : String) (port : Nat)
  | println (data : List Char)
  | stop
  | deepSleep (us : Nat)
  deriving DecidableEq, Repr

/-- The device during one wake cycle: the effects so far, oldest first, and
whether `ESP.deepSleep` has been called. Deep sleep ends the cycle: the device
restarts from reset on wake, so a sleeping device performs no further effect. -/
structure Device where
  log : List Event
  asleep : Bool
  deriving DecidableEq, Repr

/-- State at reset. -/
def Device.boot : Device := { log := [], asleep := false }

/-- Perform one effect, unless the device already sleeps. -/
def Device.emit (d : Device) (e : Event) : Device :=
  if d.asleep then d else { d with log := d.log ++ [e] }

/-- The call `ESP.deepSleep(us, WAKE_NO_RFCAL)`. -/
def Device.deepSleep (d : Device) (us : Nat) : Device :=
  if d.asleep then d else { log := d.log ++ [Event.deepSleep us], asleep := true }

/-- What the server side does during one connection attempt of `post_data`. -/
structure Attempt where
  /-- Result of `client.connect(API_HOST, 80)`. -/
  connects : Bool
  /-- Content of the receive buffer at each poll of `client.available()` made
  while `millis() < timeout`; the list ends when the timeout is reached. -/
  polls : List (List Char)
  /-- Bytes in memory right after the buffer `response_string`, up to the first
  NUL. The buffer has exactly `response_length` bytes and `readBytes` writes no
  terminator, so `atoi` goes on reading here (lines 86-88). -/
  beyond : List Char

/-- Everything the firmware reads from outside during one wake cycle. -/
structure World where
  /-- Result of `digitalRead(PIN_INPUT)`: `true` is HIGH. -/
  pin_level : Bool
  /-- Result of `ESP.getVcc()`, a `uint16_t`. -/
  vcc : Fin 65536
  /-- Where the build has put the character arrays of `setup`. -/
  frame : Frame
  /-- Whether the `k`-th call of `WiFi.status()` returns `WL_CONNECTED`. -/
  wifi_status : Nat → Bool
  /-- Microseconds since wake at the `k`-th deadline check of `connect_wifi`;
  `micros()` returns this value modulo `2 ^ 32`. -/
  clock : Nat → Nat
  /-- Behaviour of the server at the `k`-th connection attempt. -/
  server : Nat → Attempt

/-! ## `connect_wifi` (lines 39-56) -/

/-- The polling loop of `connect_wifi`; `k` counts the iterations done. -/
def wifi_loop (w : World) : Nat → Nat → Device → Option (Bool × Device)
  | 0, _, _ => none
  | fuel + 1, k, d =>
    if w.wifi_status k then some (true, d)
    else
      let d := d.emit (Event.delay 50)
      if w.clock k % 4294967296 / 1000000 > MAX_CONN_TIME then some (false, d)
      else wifi_loop w fuel (k + 1) d

/-- Model of `connect_wifi(ssid, psk)`. -/
def connect_wifi (ssid psk : String) (w : World) (fuel : Nat) (d : Device) :
    Option (Bool × Device) :=
  wifi_loop w fuel 0 (d.emit (Event.wifiBegin ssid psk))

/-! ## `go_to_sleep` (lines 59-65) -/

/-- Model of `go_to_sleep(period)`; `sleep_period` is a `uint32_t`. -/
def go_to_sleep (period : Nat) (d : Device) : Device :=
  let sleep_period := period * 1000000 % 4294967296
  d.deepSleep sleep_period

/-! ## `post_data` (lines 68-108) -/

/-- The response loop of lines 83-91: returns the new value of `http_response`.
`response_length` is a `uint8_t`. -/
def await_response (beyond : List Char) (http_response : Nat) : List (List Char) → Nat
  | [] => http_response
  | rx :: later =>
    let response_length := rx.length % 256
    if response_length > 0 then to_uint32 (atoi (rx.take response_length ++ beyond))
    else await_response beyond http_response later

/-- Lines 101-104: the wait before the next attempt. -/
def retry_delay (failure_count : Nat) (d : Device) : Device :=
  if failure_count < MAX_CONN_ATTEMPTS then d.emit (Event.delay DELAY_ERROR) else d

/-- The retry loop of `post_data`; `k` counts the connection attempts made,
`failure_count` is a `uint8_t`, `http_response` a `uint32_t`. -/
def post_loop (server : Nat → Attempt) (data : List Char) :
    Nat → Nat → Nat → Nat → Device → Option (Bool × Device)
  | 0, _, _, _, _ => none
  | fuel + 1, k, failure_count, http_response, d =>
    if failure_count < MAX_CONN_ATTEMPTS then
      let failure_count := (failure_count + 1) % 256
      let d := d.emit (Event.connect API_HOST 80)
      if (server k).connects then
        let d := d.emit (Event.println data)
        let http_response := await_response (server k).beyond http_response (server k).polls
        let d := d.emit Event.stop
        if http_response ≠ 0 then some (true, d)
        else post_loop server data fuel (k + 1) failure_count http_response
          (retry_delay failure_count d)
      else post_loop server data fuel (k + 1) failure_count http_response
        (retry_delay failure_count d)
    else some (false, d)

/-- Model of `post_data(data)`. -/
def post_data (server : Nat → Attempt) (data : List Char) (fuel : Nat) (d : Device) :
    Option (Bool × Device) :=
  post_loop server data fuel 0 0 0 d

/-! ## `setup` (lines 110-147) -/

/-- The text `sprintf` writes to `status` (line 128), without the NUL. -/
def status (vcc : Nat) : List Char :=
  sprintf API_FIELD_FLOAT.toList [Arg.int STATUS_FIELD, Arg.float vcc 1024]

/-- The C string in `api_command` after lines 122-129, for the raw pin level and
the raw supply reading: `sprintf` into `api_command` (line 123), `sprintf` into
`status` (line 128), `strcat` of the two (line 129). The `float` value
`vcc / 1024.0` is exact for every 16-bit reading. -/
def api_command (frame : Frame) (pin_level : Bool) (vcc : Nat) : List Char :=
  let pin_state := !pin_level
  let mem := sprintf_at [] frame.api_command_at API_BODY.toList
    [Arg.str API_KEY.toList, Arg.uint SENSOR_INDEX, Arg.uint (if pin_state then 1 else 0)]
  let mem := sprintf_at mem frame.status_at API_FIELD_FLOAT.toList
    [Arg.int STATUS_FIELD, Arg.float vcc 1024]
  let mem := strcat mem frame.api_command_at frame.status_at
  cstring mem frame.api_command_at

/-- The part of `setup` before `connect_wifi` (lines 116-129). -/
def setup_sample (d : Device) : Device :=
  let d := d.emit (Event.pinMode PIN_LED PinMode.OUTPUT)
  let d := d.emit (Event.pinMode PIN_INPUT PinMode.INPUT_PULLUP)
  let d := d.emit (Event.digitalWrite PIN_LED 1)
  let d := d.emit (Event.digitalRead PIN_INPUT)
  d.emit Event.getVcc

/-- The part of `setup` after `post_data` has returned `ok` (lines 140-146). -/
def setup_finish (ok : Bool) (d : Device) : Device :=
  let d := if ok = false then go_to_sleep POST_ERROR d else d
  let d := d.emit (Event.digitalWrite PIN_LED 1)
  go_to_sleep POST_PERIOD d

/-- Model of `setup()`: one wake cycle. -/
def setup (w : World) (fuel : Nat) : Option Device :=
  let d := setup_sample Device.boot
  match connect_wifi WIFI_SSID WIFI_PASS w fuel d with
  | none => none
  | some (_, d) =>
    let d := d.emit (Event.digitalWrite PIN_LED (if LED_STATUS = 0 then 1 else 0))
    match post_data w.server (api_command w.frame w.pin_level w.vcc) fuel d with
    | none => none
    | some (ok, d) => some (setup_finish ok d)

/-! ## Observations on logs, attempts and decimal text -/

/-- Whether an effect is a call of `client.connect`. -/
def Event.isConnect : Event → Bool
  | Event.connect _ _ => true
  | _ => false

/-- Whether an effect is a call of `delay`. -/
def Event.isDelay : Event → Bool
  | Event.delay _ => true
  | _ => false

/-- Whether an effect is a call of `ESP.deepSleep`. -/
def Event.isDeepSleep : Event → Bool
  | Event.deepSleep _ => true
  | _ => false

/-- Number of connection attempts among the effects. -/
def connect_attempts (evs : List Event) : Nat := evs.countP Event.isConnect

/-- Number of waits among the effects. -/
def delays (evs : List Event) : Nat := evs.countP Event.isDelay

/-- Number of deep-sleep calls among the effects. -/
def sleep_calls (evs : List Event) : Nat := evs.countP Event.isDeepSleep

/-- Value of `http_response` after the response loop of an attempt that began
with `http_response = 0`. -/
def Attempt.response (a : Attempt) : Nat := await_response a.beyond 0 a.polls

/-- The test of lines 78 and 95: the connection succeeded and `http_response`
is nonzero. -/
def Attempt.acked (a : Attempt) : Bool := a.connects && a.response != 0

/-- Effects of one connection attempt (lines 78-93). -/
def attempt_events (a : Attempt) (data : List Char) : List Event :=
  if a.connects then [Event.connect API_HOST 80, Event.println data, Event.stop]
  else [Event.connect API_HOST 80]

/-- The effects of lines 116-126, in order. -/
def sample_events : List Event :=
  [Event.pinMode PIN_LED PinMode.OUTPUT, Event.pinMode PIN_INPUT PinMode.INPUT_PULLUP,
    Event.digitalWrite PIN_LED 1, Event.digitalRead PIN_INPUT, Event.getVcc]

/-- The effects of a run of `connect_wifi` with `n` polls. -/
def wifi_events (n : Nat) : List Event :=
  Event.wifiBegin WIFI_SSID WIFI_PASS :: List.replicate n (Event.delay 50)

/-- Value of a string of decimal digits, most significant first. -/
def digits_value : List Char → Nat
  | [] => 0
  | c :: cs => (c.toNat - 48) * 10 ^ cs.length + digits_value cs

/-- Value denoted by the decimal text `ip.fp`. -/
def decimal_value (ip fp : List Char) : ℚ :=
  (digits_value ip : ℚ) + (digits_value fp : ℚ) / (10 : ℚ) ^ fp.length

/-! ## Sample servers and worlds -/

/-- An attempt whose connection is refused. -/
def Attempt.refused : Attempt := { connects := false, polls := [], beyond := [] }

/-- An attempt that connects and sees no byte in three polls. -/
def Attempt.silent : Attempt := { connects := true, polls := [[], [], []], beyond := [] }

/-- An attempt that connects and reads the given text, with a NUL right after
the buffer. -/
def Attempt.reply (text : String) : Attempt :=
  { connects := true, polls := [[], text.toList], beyond := [] }

/-- A server that refuses the first connection and answers "0" at the second
attempt. -/
def refuse_then_zero : Nat → Attempt
  | 0 => Attempt.refused
  | _ => Attempt.reply "0"

/-- A server that stays silent at the first attempt and answers "0" at the
second. -/
def silent_then_zero : Nat → Attempt
  | 0 => Attempt.silent
  | _ => Attempt.reply "0"

/-- An attempt that connects and reads the one-byte response "0" into a buffer
that is followed in memory by the character '7'. -/
def stale_digit : Attempt := { connects := true, polls := ["0".toList], beyond := ['7'] }

/-- A frame in which `api_command` starts right after the last byte of `status`. -/
def Frame.adjacent : Frame := { status_at := 0, api_command_at := STATUS_SIZE }

/-- A frame in which four bytes of padding lie between `status` and
`api_command`. -/
def Frame.padded : Frame := { status_at := 0, api_command_at := STATUS_SIZE + 4 }

/-- A frame in which `status` lies after `api_command` and four bytes of padding. -/
def Frame.reversed : Frame := { status_at := API_COMMAND_SIZE + 4, api_command_at := 0 }

/-- A world in which the join times out at the first check and every
connection is refused. -/
def dead_air : World :=
  { pin_level := false, vcc := 3379, frame := Frame.padded, wifi_status := fun _ => false,
    clock := fun _ => 11000000, server := fun _ => Attempt.refused }

/-- A world in which the link is up at once and the server answers "1"; the
build has put `api_command` right after `status`. -/
def fair_weather : World :=
  { pin_level := false, vcc := 3379, frame := Frame.adjacent, wifi_status := fun _ => true,
    clock := fun k => 50000 * (k + 1), server := fun _ => Attempt.reply "1" }

/-- A world in which the link never comes up and the clock reads 50 ms more at
each deadline check: 50 ms at the first, 100 ms at the second, and so on. -/
def never_joined : World :=
  { pin_level := false, vcc := 3379, frame := Frame.padded, wifi_status := fun _ => false,
    clock := fun k => 50000 * (k + 1), server := fun _ => Attempt.refused }

/-! ## Lemmas on the device -/

theorem emit_mk (log : List Event) (e : Event) :
    Device.emit { log := log, asleep := false } e = { log := log ++ [e], asleep := false } :=
  rfl

theorem getLast_snoc (l m : List Event) (a : Event) :
    (l ++ (m ++ [a])).getLast? = some a := by
  rw [← List.append_assoc, List.getLast?_concat]

theorem replicate_snoc (m : Nat) (e : Event) :
    List.replicate m e ++ [e] = List.replicate (m + 1) e := by
  induction m with
  | zero => rfl
  | succ m ih => rw [List.replicate_succ, List.cons_append, ih, ← List.replicate_succ]

/-! ## Lemmas on `post_data` -/

theorem post_loop_exit (server : Nat → Attempt) (data : List Char) (fuel k fc r : Nat)
    (d : Device) (h : ¬ fc < MAX_CONN_ATTEMPTS) :
    post_loop server data (fuel + 1) k fc r d = some (false, d) := by
  rw [post_loop, if_neg h]

theorem post_loop_step (server : Nat → Attempt) (data : List Char) (fuel k fc : Nat)
    (log : List Event) (h : fc < MAX_CONN_ATTEMPTS) :
    post_loop server data (fuel + 1) k fc 0 { log := log, asleep := false } =
      if (server k).acked then
        some (true, { log := log ++ attempt_events (server k) data, asleep := false })
      else
        post_loop server data fuel (k + 1) ((fc + 1) % 256) 0
          (retry_delay ((fc + 1) % 256)
            { log := log ++ attempt_events (server k) data, asleep := false }) := by
  rw [post_loop, if_pos h]
  cases hc : (server k).connects
  · simp [Attempt.acked, hc, attempt_events, Device.emit]
  · by_cases hr : await_response (server k).beyond 0 (server k).polls = 0
    · simp [Attempt.acked, Attempt.response, hc, hr, attempt_events, Device.emit]
    · simp [Attempt.acked, Attempt.response, hc, hr, attempt_events, Device.emit]

theorem post_data_run (server : Nat → Attempt) (data : List Char) (fuel : Nat) (d : Device)
    (hfuel : MAX_CONN_ATTEMPTS < fuel) (hd : d.asleep = false) :
    post_data server data fuel d =
      some (if (server 0).acked then
          (true, { log := d.log ++ attempt_events (server 0) data, asleep := false })
        else
          ((server 1).acked,
            { log := d.log ++ (attempt_events (server 0) data ++
                Event.delay DELAY_ERROR :: attempt_events (server 1) data),
              asleep := false })) := by
  obtain ⟨n, rfl⟩ : ∃ n, fuel = n + 1 + 1 + 1 :=
    ⟨fuel - 3, by simp only [MAX_CONN_ATTEMPTS] at hfuel; omega⟩
  cases d with
  | mk log asleep =>
    simp only at hd
    subst hd
    rw [post_data, post_loop_step server data (n + 1 + 1) 0 0 log (by decide)]
    by_cases h0 : (server 0).acked = true
    · simp [h0]
    · have e1 : retry_delay ((0 + 1) % 256)
          { log := log ++ attempt_events (server 0) data, asleep := false } =
          { log := (log ++ attempt_events (server 0) data) ++ [Event.delay DELAY_ERROR],
            asleep := false } := by
        simp [retry_delay, MAX_CONN_ATTEMPTS, Device.emit]
      rw [if_neg h0, e1, post_loop_step server data (n + 1) (0 + 1) ((0 + 1) % 256) _ (by decide)]
      by_cases h1 : (server 1).acked = true
      · simp [h0, h1]
      · have e2 : retry_delay (((0 + 1) % 256 + 1) % 256)
            { log := ((log ++ attempt_events (server 0) data) ++ [Event.delay DELAY_ERROR]) ++
                attempt_events (server (0 + 1)) data, asleep := false } =
            { log := ((log ++ attempt_events (server 0) data) ++ [Event.delay DELAY_ERROR]) ++
                attempt_events (server (0 + 1)) data, asleep := false } := by
          simp [retry_delay, MAX_CONN_ATTEMPTS]
        rw [if_neg h1, e2, post_loop_exit server data n _ _ _ _ (by decide)]
        simp [h0, h1]

theorem await_response_silent (beyond : List Char) (r : Nat) (polls : List (List Char))
    (h : ∀ rx ∈ polls, rx = []) : await_response beyond r polls = r := by
  induction polls with
  | nil => rfl
  | cons rx later ih =>
    have hrx : rx = [] := h rx (List.mem_cons_self rx later)
    subst hrx
    simp only [await_response, List.length_nil, Nat.zero_mod, gt_iff_lt, Nat.lt_irrefl,
      if_false]
    exact ih (fun x hx => h x (List.mem_cons_of_mem _ hx))

theorem connect_attempts_attempt (a : Attempt) (data : List Char) :
    connect_attempts (attempt_events a data) = 1 := by
  cases h : a.connects <;> simp [connect_attempts, attempt_events, h, Event.isConnect]

theorem delays_attempt (a : Attempt) (data : List Char) :
    delays (attempt_events a data) = 0 := by
  cases h : a.connects <;> simp [delays, attempt_events, h, Event.isDelay]

theorem sleep_calls_attempt (a : Attempt) (data : List Char) :
    sleep_calls (attempt_events a data) = 0 := by
  cases h : a.connects <;> simp [sleep_calls, attempt_events, h, Event.isDeepSleep]

theorem connect_attempts_two (a b : Attempt) (data : List Char) :
    connect_attempts (attempt_events a data ++ Event.delay DELAY_ERROR :: attempt_events b data)
      = 2 := by
  have ha := connect_attempts_attempt a data
  have hb := connect_attempts_attempt b data
  simp only [connect_attempts] at ha hb ⊢
  simp [List.countP_append, List.countP_cons, ha, hb, Event.isConnect]

theorem delays_two (a b : Attempt) (data : List Char) :
    delays (attempt_events a data ++ Event.delay DELAY_ERROR :: attempt_events b data) = 1 := by
  have ha := delays_attempt a data
  have hb := delays_attempt b data
  simp only [delays] at ha hb ⊢
  simp [List.countP_append, List.countP_cons, ha, hb, Event.isDelay]

theorem sleep_calls_two (a b : Attempt) (data : List Char) :
    sleep_calls (attempt_events a data ++ Event.delay DELAY_ERROR :: attempt_events b data)
      = 0 := by
  have ha := sleep_calls_attempt a data
  have hb := sleep_calls_attempt b data
  simp only [sleep_calls] at ha hb ⊢
  simp [List.countP_append, List.countP_cons, ha, hb, Event.isDeepSleep]

theorem getLast_attempt (a : Attempt) (data : List Char) (pre : List Event) :
    (pre ++ attempt_events a data).getLast? =
      some (if a.connects then Event.stop else Event.connect API_HOST 80) := by
  cases h : a.connects <;> simp [attempt_events, h, List.getLast?_append]

theorem not_acked_of_fails (a : Attempt)
    (h : a.connects = false ∨ (a.connects = true ∧ ∀ rx ∈ a.polls, rx = []) ∨
      (a.connects = true ∧ a.response = 0)) : a.acked = false := by
  rcases h with h | ⟨_, h⟩ | ⟨_, h⟩
  · simp [Attempt.acked, h]
  · simp [Attempt.acked, Attempt.response, await_response_silent _ _ _ h]
  · simp [Attempt.acked, h]

theorem acked_iff (a : Attempt) : a.acked = true ↔ (a.connects = true ∧ a.response ≠ 0) := by
  simp [Attempt.acked]

/-! ## Lemmas on `connect_wifi` -/

theorem wifi_loop_log (w : World) (fuel : Nat) : ∀ (k : Nat) (log : List Event) (r : Bool)
    (d : Device), wifi_loop w fuel k { log := log, asleep := false } = some (r, d) →
    ∃ n, d = { log := log ++ List.replicate n (Event.delay 50), asleep := false } := by
  induction fuel with
  | zero => intro k log r d h; simp [wifi_loop] at h
  | succ fuel ih =>
    intro k log r d h
    rw [wifi_loop] at h
    by_cases hs : w.wifi_status k = true
    · rw [if_pos hs] at h
      refine ⟨0, ?_⟩
      simp only [Option.some.injEq, Prod.mk.injEq] at h
      simp [← h.2]
    · rw [if_neg hs] at h
      rw [emit_mk] at h
      by_cases ht : w.clock k % 4294967296 / 1000000 > MAX_CONN_TIME
      · rw [if_pos ht] at h
        refine ⟨1, ?_⟩
        simp only [Option.some.injEq, Prod.mk.injEq] at h
        simp [← h.2]
      · rw [if_neg ht] at h
        obtain ⟨n, hn⟩ := ih _ _ _ _ h
        refine ⟨n + 1, ?_⟩
        rw [hn, List.replicate_succ]
        simp

theorem connect_wifi_log (w : World) (fuel : Nat) (ssid psk : String) (log : List Event)
    (r : Bool) (d : Device)
    (h : connect_wifi ssid psk w fuel { log := log, asleep := false } = some (r, d)) :
    ∃ n, d = { log := log ++ Event.wifiBegin ssid psk :: List.replicate n (Event.delay 50),
               asleep := false } := by
  rw [connect_wifi, emit_mk] at h
  obtain ⟨n, hn⟩ := wifi_loop_log w fuel _ _ _ _ h
  exact ⟨n, by rw [hn]; simp⟩

theorem wifi_loop_fuel (w : World) (n : Nat) (fuel : Nat) : ∀ (k : Nat) (d : Device)
    (r : Bool × Device), wifi_loop w fuel k d = some r → wifi_loop w (fuel + n) k d = some r := by
  induction fuel with
  | zero => intro k d r h; simp [wifi_loop] at h
  | succ fuel ih =>
    intro k d r h
    rw [Nat.add_right_comm, wifi_loop]
    rw [wifi_loop] at h
    by_cases hs : w.wifi_status k = true
    · rw [if_pos hs] at h ⊢; exact h
    · rw [if_neg hs] at h ⊢
      by_cases ht : w.clock k % 4294967296 / 1000000 > MAX_CONN_TIME
      · rw [if_pos ht] at h ⊢; exact h
      · rw [if_neg ht] at h ⊢; exact ih _ _ _ h

theorem wifi_loop_skip (w : World) (hs : ∀ k, w.wifi_status k = false) (m : Nat) :
    ∀ (fuel k : Nat) (log : List Event), (∀ j, j < m → w.clock (k + j) < 11000000) →
      wifi_loop w (m + fuel) k { log := log, asleep := false } =
        wifi_loop w fuel (k + m)
          { log := log ++ List.replicate m (Event.delay 50), asleep := false } := by
  induction m with
  | zero => intro fuel k log _; simp
  | succ m ih =>
    intro fuel k log h
    have hk : w.clock k < 11000000 := by simpa using h 0 (Nat.succ_pos m)
    have hc : ¬ w.clock k % 4294967296 / 1000000 > MAX_CONN_TIME := by
      simp only [MAX_CONN_TIME]; omega
    have hf : m + 1 + fuel = (m + fuel) + 1 := by omega
    rw [hf, wifi_loop, hs k, emit_mk]
    simp only [Bool.false_eq_true, if_false, if_neg hc]
    rw [ih fuel (k + 1) _ (fun j hj => by
      have := h (j + 1) (by omega)
      rwa [show k + 1 + j = k + (j + 1) by omega])]
    rw [show k + 1 + m = k + (m + 1) by omega, List.replicate_succ]
    simp

/-- When the link never comes up, the clock reads at least 50 ms more at each
check and no single step carries the 32-bit counter over its range,
`connect_wifi` returns failure at the first check made 11 s or more after wake,
after at most 220 checks. -/
theorem connect_wifi_times_out (w : World) (ssid psk : String) (n : Nat)
    (hs : ∀ k, w.wifi_status k = false) (h0 : 50000 ≤ w.clock 0)
    (hstep : ∀ k, w.clock k + 50000 ≤ w.clock (k + 1))
    (hwrap0 : w.clock 0 < 4294967296)
    (hwrap : ∀ k, w.clock k < 11000000 → w.clock (k + 1) < 4294967296) :
    ∃ m, m < 220 ∧
      connect_wifi ssid psk w (220 + n) Device.boot =
        some (false, { log := Event.wifiBegin ssid psk :: List.replicate (m + 1) (Event.delay 50),
                       asleep := false }) ∧
      11000000 ≤ w.clock m ∧ ∀ j, j < m → w.clock j < 11000000 := by
  have hlin : ∀ k, 50000 * (k + 1) ≤ w.clock k := by
    intro k
    induction k with
    | zero => simpa using h0
    | succ k ih => have := hstep k; omega
  have hex : ∃ k, 11000000 ≤ w.clock k := ⟨219, by have := hlin 219; omega⟩
  classical
  have hm := Nat.find_spec hex
  have hmin : ∀ j, j < Nat.find hex → w.clock j < 11000000 := fun j hj =>
    Nat.lt_of_not_le (Nat.find_min hex hj)
  have hle : Nat.find hex ≤ 219 := Nat.find_min' hex (by have := hlin 219; omega)
  generalize Nat.find hex = m at hm hmin hle
  have hlt : w.clock m < 4294967296 := by
    cases m with
    | zero => exact hwrap0
    | succ m => exact hwrap m (hmin m (Nat.lt_succ_self m))
  refine ⟨m, by omega, ?_, hm, hmin⟩
  have hc : w.clock m % 4294967296 / 1000000 > MAX_CONN_TIME := by
    simp only [MAX_CONN_TIME]; omega
  have hf : 220 + n = m + ((219 - m + n) + 1) := by omega
  rw [connect_wifi, show Device.emit Device.boot (Event.wifiBegin ssid psk) =
    { log := [Event.wifiBegin ssid psk], asleep := false } from rfl, hf,
    wifi_loop_skip w hs m _ 0 _ (fun j hj => by simpa using hmin j hj), wifi_loop,
    Nat.zero_add, hs m, emit_mk]
  simp only [Bool.false_eq_true, if_false, if_pos hc]
  rw [← replicate_snoc m (Event.delay 50)]
  simp

set_option maxRecDepth 100000 in
theorem never_joined_220 :
    wifi_loop never_joined 220 0 { log := [Event.wifiBegin WIFI_SSID WIFI_PASS], asleep := false }
      = some (false, { log := wifi_events 220, asleep := false }) := by
  decide

set_option maxRecDepth 100000 in
theorem never_joined_201 :
    wifi_loop never_joined 201 0 (Device.emit Device.boot (Event.wifiBegin WIFI_SSID WIFI_PASS))
      = none := by
  decide

/-! ## Lemmas on `setup` -/

theorem setup_sample_boot : setup_sample Device.boot = { log := sample_events, asleep := false } := by
  decide

theorem setup_finish_awake (ok : Bool) (log : List Event) :
    setup_finish ok { log := log, asleep := false } =
      { log := log ++ (if ok then
            [Event.digitalWrite PIN_LED 1, Event.deepSleep (POST_PERIOD * 1000000)]
          else [Event.deepSleep (POST_ERROR * 1000000)]),
        asleep := true } := by
  cases ok <;>
    simp [setup_finish, go_to_sleep, Device.deepSleep, Device.emit, POST_PERIOD, POST_ERROR]

/-- The shape of every wake cycle whose join step returns. -/
theorem setup_run (w : World) (fuel : Nat) (joined : Bool) (d1 : Device)
    (hfuel : MAX_CONN_ATTEMPTS < fuel)
    (hjoin : connect_wifi WIFI_SSID WIFI_PASS w fuel (setup_sample Device.boot) =
      some (joined, d1)) :
    ∃ (n : Nat) (ok : Bool) (evs : List Event),
      d1 = { log := sample_events ++ wifi_events n, asleep := false } ∧
      post_data w.server (api_command w.frame w.pin_level w.vcc) fuel
          (d1.emit (Event.digitalWrite PIN_LED 0)) =
        some (ok, { log := d1.log ++ Event.digitalWrite PIN_LED 0 :: evs, asleep := false }) ∧
      1 ≤ connect_attempts evs ∧ sleep_calls evs = 0 ∧
      setup w fuel = some (setup_finish ok
        { log := d1.log ++ Event.digitalWrite PIN_LED 0 :: evs, asleep := false }) := by
  have hj := hjoin
  rw [setup_sample_boot] at hj
  obtain ⟨n, hn⟩ := connect_wifi_log w fuel _ _ _ _ _ hj
  have hled : d1.emit (Event.digitalWrite PIN_LED 0) =
      { log := d1.log ++ [Event.digitalWrite PIN_LED 0], asleep := false } := by
    rw [hn]; rfl
  have hpost := post_data_run w.server (api_command w.frame w.pin_level w.vcc) fuel
    (d1.emit (Event.digitalWrite PIN_LED 0)) hfuel (by rw [hled])
  have hsetup : setup w fuel = (match post_data w.server (api_command w.frame w.pin_level w.vcc) fuel
        (d1.emit (Event.digitalWrite PIN_LED 0)) with
      | none => none
      | some (ok, d) => some (setup_finish ok d)) := by
    simp only [setup, hjoin]
    rfl
  by_cases h0 : (w.server 0).acked = true
  · refine ⟨n, true, attempt_events (w.server 0) (api_command w.frame w.pin_level w.vcc), hn, ?_, ?_,
      sleep_calls_attempt _ _, ?_⟩
    · rw [hpost, hled]; simp [h0]
    · rw [connect_attempts_attempt]
    · rw [hsetup, hpost, hled]; simp [h0]
  · refine ⟨n, (w.server 1).acked, attempt_events (w.server 0) (api_command w.frame w.pin_level w.vcc) ++
      Event.delay DELAY_ERROR :: attempt_events (w.server 1) (api_command w.frame w.pin_level w.vcc),
      hn, ?_, ?_, sleep_calls_two _ _ _, ?_⟩
    · rw [hpost, hled]; simp [h0]
    · rw [connect_attempts_two]; decide
    · rw [hsetup, hpost, hled]; simp [h0]

/-! ## Lemmas on formatting and parsing -/

theorem isdigit_digitChar (d : Nat) (h : d < 10) : isdigit (digitChar d) = true := by
  interval_cases d <;> rfl

theorem toNat_digitChar (d : Nat) (h : d < 10) : (digitChar d).toNat - 48 = d := by
  interval_cases d <;> rfl

theorem utoa_core_length (fuel : Nat) : ∀ (n : Nat) (acc : List Char),
    acc.length + 1 ≤ (utoa_core (fuel + 1) n acc).length := by
  induction fuel with
  | zero =>
    intro n acc
    simp only [utoa_core]
    split <;> simp
  | succ fuel ih =>
    intro n acc
    rw [utoa_core]
    split
    · simp
    · have := ih (n / 10) (digitChar (n % 10) :: acc)
      simp only [List.length_cons] at this
      omega

theorem utoa_core_digits (fuel : Nat) : ∀ (n : Nat) (acc : List Char),
    (∀ c ∈ acc, isdigit c = true) → ∀ c ∈ utoa_core fuel n acc, isdigit c = true := by
  induction fuel with
  | zero => intro n acc h; simpa [utoa_core] using h
  | succ fuel ih =>
    intro n acc h
    have hacc : ∀ c ∈ digitChar (n % 10) :: acc, isdigit c = true := by
      intro c hc
      rcases List.mem_cons.1 hc with rfl | hc
      · exact isdigit_digitChar _ (Nat.mod_lt _ (by decide))
      · exact h c hc
    rw [utoa_core]
    split
    · exact hacc
    · exact ih _ _ hacc

theorem utoa_core_value (fuel : Nat) : ∀ (n : Nat) (acc : List Char), n < fuel →
    digits_value (utoa_core fuel n acc) = n * 10 ^ acc.length + digits_value acc := by
  induction fuel with
  | zero => intro n acc h; omega
  | succ fuel ih =>
    intro n acc h
    rw [utoa_core]
    split
    · rename_i h0
      have hn : n % 10 = n := by omega
      rw [digits_value, toNat_digitChar _ (Nat.mod_lt _ (by decide)), hn]
    · rename_i h0
      rw [ih (n / 10) _ (by omega), digits_value, toNat_digitChar _ (Nat.mod_lt _ (by decide)),
        List.length_cons, pow_succ]
      have hdm := Nat.div_add_mod n 10
      calc n / 10 * (10 ^ acc.length * 10) + (n % 10 * 10 ^ acc.length + digits_value acc)
          = (10 * (n / 10) + n % 10) * 10 ^ acc.length + digits_value acc := by ring
        _ = n * 10 ^ acc.length + digits_value acc := by rw [hdm]

theorem utoa_value (n : Nat) : digits_value (utoa n) = n := by
  rw [utoa, utoa_core_value (n + 1) n [] (Nat.lt_succ_self n)]
  simp [digits_value]

theorem utoa_digits (n : Nat) : ∀ c ∈ utoa n, isdigit c = true :=
  utoa_core_digits (n + 1) n [] (by simp)

theorem utoa_length (n : Nat) : 1 ≤ (utoa n).length := by
  have := utoa_core_length n n []
  simpa [utoa] using this

/-- What line 128 stores at the address of `status`: the text `status vcc` and a
NUL. -/
theorem sprintf_at_status (mem : List Char) (addr vcc : Nat) :
    sprintf_at mem addr API_FIELD_FLOAT.toList [Arg.int STATUS_FIELD, Arg.float vcc 1024] =
      poke mem addr (status vcc ++ [NUL]) :=
  rfl

theorem status_eq (vcc : Nat) : status vcc = "&field2=".toList ++ ftoa2 vcc 1024 := by
  have h : status vcc = "&field2=".toList ++ (ftoa2 vcc 1024 ++ []) := rfl
  rw [h, List.append_nil]

theorem round_hundredths_near (n : Nat) :
    1024 * round_hundredths n 1024 ≤ 100 * n + 512 ∧
    100 * n ≤ 1024 * round_hundredths n 1024 + 512 := by
  simp only [round_hundredths]
  split
  · omega
  · split
    · omega
    · split <;> omega

theorem digit_run_mono : ∀ (cs : List Char) (acc : Nat), acc ≤ digit_run cs acc := by
  intro cs
  induction cs with
  | nil => intro acc; exact Nat.le_refl _
  | cons c cs ih =>
    intro acc
    rw [digit_run]
    split
    · exact Nat.le_trans (by omega) (ih _)
    · exact Nat.le_refl _

theorem digit_run_pos : ∀ (text beyond : List Char) (acc : Nat),
    (∀ c ∈ text, isdigit c = true) → (1 ≤ acc ∨ 0 < digits_value text) →
    1 ≤ digit_run (text ++ beyond) acc := by
  intro text
  induction text with
  | nil =>
    intro beyond acc _ h
    rcases h with h | h
    · exact Nat.le_trans h (digit_run_mono _ _)
    · simp [digits_value] at h
  | cons c cs ih =>
    intro beyond acc hd h
    have hc : isdigit c = true := hd c (List.mem_cons_self c cs)
    rw [List.cons_append, digit_run, if_pos hc]
    apply ih beyond _ (fun x hx => hd x (List.mem_cons_of_mem _ hx))
    rcases h with h | h
    · left; omega
    · rw [digits_value] at h
      by_cases hz : c.toNat - 48 = 0
      · right; simpa [hz] using h
      · left; omega

/-- Whatever follows the buffer, a response that is a positive decimal integer
gives a nonzero `http_response`. -/
theorem atoi_positive (text beyond : List Char) (hd : ∀ c ∈ text, isdigit c = true)
    (hpos : 0 < digits_value text) : to_uint32 (atoi (text ++ beyond)) ≠ 0 := by
  cases text with
  | nil => simp [digits_value] at hpos
  | cons c cs =>
    have hc : isdigit c = true := hd c (List.mem_cons_self c cs)
    have hrun := digit_run_pos (c :: cs) beyond 0 hd (Or.inr hpos)
    have hsp : isspace c = false := by
      simp only [isdigit, Bool.and_eq_true, decide_eq_true_eq] at hc
      simp only [isspace, Bool.or_eq_false_iff, Bool.and_eq_false_iff, decide_eq_false_iff_not]
      omega
    have hskip : skip_space (c :: cs ++ beyond) = c :: (cs ++ beyond) := by
      rw [List.cons_append, skip_space, hsp]; rfl
    have hminus : c ≠ '-' := by rintro rfl; exact absurd hc (by decide)
    have hplus : c ≠ '+' := by rintro rfl; exact absurd hc (by decide)
    have hval : atoi (c :: cs ++ beyond) =
        min (digit_run (c :: cs ++ beyond) 0 : Int) 2147483647 := by
      rw [atoi, strtol, hskip]
      split
      · rename_i h; exact absurd (List.cons.inj h).1 hminus
      · rename_i h; exact absurd (List.cons.inj h).1 hplus
      · rfl
    rw [hval, to_uint32]
    have h1 : (1 : Int) ≤ (digit_run (c :: cs ++ beyond) 0 : Int) := by exact_mod_cast hrun
    omega

/-- A response that does not begin with white space, a sign or a digit gives
`http_response = 0`, whatever follows the buffer. -/
theorem atoi_no_number (c : Char) (cs beyond : List Char) (hsp : isspace c = false)
    (hd : isdigit c = false) (hminus : c ≠ '-') (hplus : c ≠ '+') :
    to_uint32 (atoi (c :: cs ++ beyond)) = 0 := by
  have hskip : skip_space (c :: cs ++ beyond) = c :: (cs ++ beyond) := by
    rw [List.cons_append, skip_space, hsp]; rfl
  rw [atoi, strtol, hskip]
  split
  · rename_i h; exact absurd (List.cons.inj h).1 hminus
  · rename_i h; exact absurd (List.cons.inj h).1 hplus
  · rename_i cs1 _ _
    simp [digit_run, hd, to_uint32]

/-! ## The claims -/

/-- C1: when each of the attempts within the limit fails to connect, or connects
and sees no byte before the HTTP timeout, or reads a response that parses to 0,
`post_data` (given fuel for its loop) makes exactly `MAX_CONN_ATTEMPTS = 2`
connection attempts and returns failure. -/
theorem post_data_retries_then_fails (server : Nat → Attempt) (data : List Char) (fuel : Nat)
    (d : Device) (hfuel : MAX_CONN_ATTEMPTS < fuel) (hd : d.asleep = false)
    (hfail : ∀ k, k < MAX_CONN_ATTEMPTS →
      (server k).connects = false ∨
      ((server k).connects = true ∧ ∀ rx ∈ (server k).polls, rx = []) ∨
      ((server k).connects = true ∧ (server k).response = 0)) :
    ∃ evs, post_data server data fuel d =
        some (false, { log := d.log ++ evs, asleep := false }) ∧
      connect_attempts evs = MAX_CONN_ATTEMPTS ∧ MAX_CONN_ATTEMPTS = 2 := by
  have h0 := not_acked_of_fails (server 0) (hfail 0 (by decide))
  have h1 := not_acked_of_fails (server 1) (hfail 1 (by decide))
  refine ⟨attempt_events (server 0) data ++
    Event.delay DELAY_ERROR :: attempt_events (server 1) data, ?_, ?_, rfl⟩
  · rw [post_data_run server data fuel d hfuel hd]
    simp [h0, h1]
  · exact connect_attempts_two _ _ _

theorem post_data_retries_then_fails_witness :
    ∃ evs, post_data silent_then_zero [] 3 Device.boot =
        some (false, { log := Device.boot.log ++ evs, asleep := false }) ∧
      connect_attempts evs = MAX_CONN_ATTEMPTS ∧ MAX_CONN_ATTEMPTS = 2 :=
  post_data_retries_then_fails silent_then_zero [] 3 Device.boot (by decide) rfl
    (fun k hk => by
      have hk2 : k < 2 := hk
      interval_cases k
      · exact Or.inr (Or.inl ⟨rfl, by decide⟩)
      · exact Or.inr (Or.inr ⟨rfl, by decide⟩))

/-- C2: `post_data` (given fuel for its loop) returns success at the first
attempt `k` within the limit whose connection succeeds and whose response parses
to a nonzero value: it has then made `k + 1` connection attempts and the last
effect is the `stop` of that attempt. For `k = 0` this is success after exactly
one connection attempt. -/
theorem post_data_first_ack (server : Nat → Attempt) (data : List Char) (fuel : Nat)
    (d : Device) (k : Nat) (hfuel : MAX_CONN_ATTEMPTS < fuel) (hd : d.asleep = false)
    (hk : k < MAX_CONN_ATTEMPTS)
    (hack : (server k).connects = true ∧ (server k).response ≠ 0)
    (hbefore : ∀ j, j < k → ¬ ((server j).connects = true ∧ (server j).response ≠ 0)) :
    ∃ evs, post_data server data fuel d =
        some (true, { log := d.log ++ evs, asleep := false }) ∧
      connect_attempts evs = k + 1 ∧ evs.getLast? = some Event.stop := by
  have hk2 : k < 2 := hk
  rw [post_data_run server data fuel d hfuel hd]
  interval_cases k
  · have h0 : (server 0).acked = true := (acked_iff _).2 hack
    refine ⟨attempt_events (server 0) data, by simp [h0], connect_attempts_attempt _ _, ?_⟩
    have := getLast_attempt (server 0) data []
    simpa [hack.1] using this
  · have h0 : ¬ (server 0).acked = true := fun h => hbefore 0 (by decide) ((acked_iff _).1 h)
    have h1 : (server 1).acked = true := (acked_iff _).2 hack
    refine ⟨attempt_events (server 0) data ++
      Event.delay DELAY_ERROR :: attempt_events (server 1) data, by simp [h0, h1],
      connect_attempts_two _ _ _, ?_⟩
    have := getLast_attempt (server 1) data
      (attempt_events (server 0) data ++ [Event.delay DELAY_ERROR])
    simpa [hack.1] using this

theorem post_data_first_ack_witness :
    ((fun _ => Attempt.reply "17") 0).connects = true ∧
    ((fun _ => Attempt.reply "17") 0).response ≠ 0 ∧
    ∃ evs, post_data (fun _ => Attempt.reply "17") [] 3 Device.boot =
        some (true, { log := Device.boot.log ++ evs, asleep := false }) ∧
      connect_attempts evs = 0 + 1 ∧ evs.getLast? = some Event.stop :=
  ⟨rfl, by decide,
    post_data_first_ack (fun _ => Attempt.reply "17") [] 3 Device.boot 0 (by decide) rfl
      (by decide) ⟨rfl, by decide⟩ (fun j hj => absurd hj (Nat.not_lt_zero j))⟩

/-- C3: in every wake cycle whose join step returns, `setup` ends with exactly
one deep-sleep call, the last effect of the cycle: for `POST_ERROR * 1000000 =
150000000` microseconds when `post_data` returns failure and for `POST_PERIOD *
1000000 = 900000000` microseconds when it returns success. Both products are
below `2 ^ 32`, so the 32-bit multiplication in `go_to_sleep` does not wrap. -/
theorem setup_sleep_period (w : World) (fuel : Nat) (joined : Bool) (d1 : Device)
    (hfuel : MAX_CONN_ATTEMPTS < fuel)
    (hjoin : connect_wifi WIFI_SSID WIFI_PASS w fuel (setup_sample Device.boot) =
      some (joined, d1)) :
    ∃ (ok : Bool) (d2 d : Device),
      post_data w.server (api_command w.frame w.pin_level w.vcc) fuel
        (d1.emit (Event.digitalWrite PIN_LED 0)) = some (ok, d2) ∧
      setup w fuel = some d ∧ d.asleep = true ∧ sleep_calls d.log = 1 ∧
      (ok = false → d.log.getLast? = some (Event.deepSleep 150000000)) ∧
      (ok = true → d.log.getLast? = some (Event.deepSleep 900000000)) ∧
      go_to_sleep POST_ERROR { log := [], asleep := false } =
        { log := [Event.deepSleep 150000000], asleep := true } ∧
      go_to_sleep POST_PERIOD { log := [], asleep := false } =
        { log := [Event.deepSleep 900000000], asleep := true } ∧
      POST_ERROR * 1000000 = 150000000 ∧ POST_PERIOD * 1000000 = 900000000 ∧
      POST_PERIOD * 1000000 < 2 ^ 32 := by
  obtain ⟨n, ok, evs, hd1, hpost, _, hs, hsetup⟩ := setup_run w fuel joined d1 hfuel hjoin
  refine ⟨ok, _, _, hpost, hsetup, ?_, ?_, ?_, ?_, by decide, by decide, by decide, by decide,
    by decide⟩
  · rw [setup_finish_awake]
  · rw [setup_finish_awake, hd1]
    simp only [sleep_calls] at hs ⊢
    cases ok <;>
      simp [List.countP_append, List.countP_cons, hs, Event.isDeepSleep, sample_events,
        wifi_events, List.countP_replicate]
  · intro hok
    subst hok
    rw [setup_finish_awake]
    exact getLast_snoc _ [] _
  · intro hok
    subst hok
    rw [setup_finish_awake]
    exact getLast_snoc _ [Event.digitalWrite PIN_LED 1] _

theorem setup_sleep_period_witness :
    ∃ (ok : Bool) (d2 d : Device),
      post_data fair_weather.server (api_command fair_weather.frame fair_weather.pin_level fair_weather.vcc) 3
        (Device.emit { log := sample_events ++ wifi_events 0, asleep := false }
          (Event.digitalWrite PIN_LED 0)) = some (ok, d2) ∧
      setup fair_weather 3 = some d ∧ d.asleep = true ∧ sleep_calls d.log = 1 ∧
      (ok = false → d.log.getLast? = some (Event.deepSleep 150000000)) ∧
      (ok = true → d.log.getLast? = some (Event.deepSleep 900000000)) ∧
      go_to_sleep POST_ERROR { log := [], asleep := false } =
        { log := [Event.deepSleep 150000000], asleep := true } ∧
      go_to_sleep POST_PERIOD { log := [], asleep := false } =
        { log := [Event.deepSleep 900000000], asleep := true } ∧
      POST_ERROR * 1000000 = 150000000 ∧ POST_PERIOD * 1000000 = 900000000 ∧
      POST_PERIOD * 1000000 < 2 ^ 32 :=
  setup_sleep_period fair_weather 3 true
    { log := sample_events ++ wifi_events 0, asleep := false } (by decide) (by decide)

/-- C4: whatever the join step returns (connected or timed out) and whatever
`post_data` returns, `setup` has sampled the pin and the supply before the join,
runs `post_data` once on the request built from the sample, and ends asleep
with a deep-sleep call as its last effect. -/
theorem setup_always_sleeps (w : World) (fuel : Nat) (joined : Bool) (d1 : Device)
    (hfuel : MAX_CONN_ATTEMPTS < fuel)
    (hjoin : connect_wifi WIFI_SSID WIFI_PASS w fuel (setup_sample Device.boot) =
      some (joined, d1)) :
    ∃ (n : Nat) (ok : Bool) (evs : List Event) (us : Nat) (d : Device),
      d1.log = sample_events ++ wifi_events n ∧
      Event.digitalRead PIN_INPUT ∈ sample_events ∧ Event.getVcc ∈ sample_events ∧
      post_data w.server (api_command w.frame w.pin_level w.vcc) fuel
          (d1.emit (Event.digitalWrite PIN_LED 0)) =
        some (ok, { log := d1.log ++ Event.digitalWrite PIN_LED 0 :: evs, asleep := false }) ∧
      1 ≤ connect_attempts evs ∧
      setup w fuel = some d ∧ d.asleep = true ∧
      d.log = (d1.log ++ Event.digitalWrite PIN_LED 0 :: evs) ++
        ((if ok then [Event.digitalWrite PIN_LED 1] else []) ++ [Event.deepSleep us]) ∧
      connect_attempts d.log = connect_attempts evs := by
  obtain ⟨n, ok, evs, hd1, hpost, hc, _, hsetup⟩ := setup_run w fuel joined d1 hfuel hjoin
  refine ⟨n, ok, evs, if ok then POST_PERIOD * 1000000 else POST_ERROR * 1000000, _, ?_,
    by decide, by decide, hpost, hc, hsetup, ?_, ?_, ?_⟩
  · rw [hd1]
  · rw [setup_finish_awake]
  · rw [setup_finish_awake]
    cases ok <;> simp
  · rw [setup_finish_awake, hd1]
    simp only [connect_attempts]
    cases ok <;>
      simp [List.countP_append, List.countP_cons, Event.isConnect, sample_events,
        wifi_events, List.countP_replicate]

theorem setup_always_sleeps_witness :
    ∃ (n : Nat) (ok : Bool) (evs : List Event) (us : Nat) (d : Device),
      (sample_events ++ wifi_events 1) = sample_events ++ wifi_events n ∧
      Event.digitalRead PIN_INPUT ∈ sample_events ∧ Event.getVcc ∈ sample_events ∧
      post_data dead_air.server (api_command dead_air.frame dead_air.pin_level dead_air.vcc) 3
          (Device.emit { log := sample_events ++ wifi_events 1, asleep := false }
            (Event.digitalWrite PIN_LED 0)) =
        some (ok, { log := (sample_events ++ wifi_events 1) ++
          Event.digitalWrite PIN_LED 0 :: evs, asleep := false }) ∧
      1 ≤ connect_attempts evs ∧
      setup dead_air 3 = some d ∧ d.asleep = true ∧
      d.log = ((sample_events ++ wifi_events 1) ++ Event.digitalWrite PIN_LED 0 :: evs) ++
        ((if ok then [Event.digitalWrite PIN_LED 1] else []) ++ [Event.deepSleep us]) ∧
      connect_attempts d.log = connect_attempts evs :=
  setup_always_sleeps dead_air 3 false
    { log := sample_events ++ wifi_events 1, asleep := false } (by decide) (by decide)

/-- C5: in a build that places `api_command` right after `status`, the NUL that
`sprintf` stores past the end of `status` (line 128) lands on the first byte of
`api_command`; `strcat` then finds an empty string there, and the text it leaves
in `api_command`, which `setup` sends, is "&field2=3.30" for the reading 3379
(3.30 V), for a low and for a high pin alike: not the text
"GET /update?api_key=API_WRITE_KEY_HERE&field1=1&field2=3.30", which is built
when padding follows `status` or `status` lies after `api_command`. -/
theorem api_command_clobbered :
    Frame.adjacent.api_command_at = Frame.adjacent.status_at + STATUS_SIZE ∧
      String.mk (api_command Frame.adjacent false 3379) = "&field2=3.30" ∧
      String.mk (api_command Frame.adjacent true 3379) = "&field2=3.30" ∧
      String.mk (api_command Frame.adjacent false 3379) ≠
        "GET /update?api_key=API_WRITE_KEY_HERE&field1=1&field2=3.30" ∧
      setup fair_weather 3 = some
        { log := sample_events ++ wifi_events 0 ++
            [Event.digitalWrite PIN_LED 0, Event.connect API_HOST 80,
              Event.println "&field2=3.30".toList, Event.stop,
              Event.digitalWrite PIN_LED 1, Event.deepSleep 900000000],
          asleep := true } ∧
      String.mk (api_command Frame.padded false 3379) =
        "GET /update?api_key=API_WRITE_KEY_HERE&field1=1&field2=3.30" ∧
      String.mk (api_command Frame.padded true 3379) =
        "GET /update?api_key=API_WRITE_KEY_HERE&field1=0&field2=3.30" ∧
      String.mk (api_command Frame.reversed false 3379) =
        "GET /update?api_key=API_WRITE_KEY_HERE&field1=1&field2=3.30" := by
  decide

/-- C6: for every supply reading `n` the text formatted for the voltage
`n / 1024` is one or more decimal digits, a decimal point and exactly two
decimal digits, and the number it denotes is within 0.005 of `n / 1024`. -/
theorem voltage_field_format (n : Nat) :
    ∃ (ip : List Char) (d1 d2 : Char),
      status n = "&field2=".toList ++ (ip ++ ['.', d1, d2]) ∧
      1 ≤ ip.length ∧ (∀ c ∈ ip, isdigit c = true) ∧ isdigit d1 = true ∧ isdigit d2 = true ∧
      |decimal_value ip [d1, d2] - (n : ℚ) / 1024| ≤ 5 / 1000 := by
  have h1 : round_hundredths n 1024 / 10 % 10 < 10 := Nat.mod_lt _ (by decide)
  have h2 : round_hundredths n 1024 % 10 < 10 := Nat.mod_lt _ (by decide)
  refine ⟨utoa (round_hundredths n 1024 / 100), digitChar (round_hundredths n 1024 / 10 % 10),
    digitChar (round_hundredths n 1024 % 10), ?_, utoa_length _, utoa_digits _,
    isdigit_digitChar _ h1, isdigit_digitChar _ h2, ?_⟩
  · rw [status_eq]; rfl
  · obtain ⟨hlo, hhi⟩ := round_hundredths_near n
    have hv : decimal_value (utoa (round_hundredths n 1024 / 100))
        [digitChar (round_hundredths n 1024 / 10 % 10), digitChar (round_hundredths n 1024 % 10)]
        = (round_hundredths n 1024 : ℚ) / 100 := by
      have hnat : round_hundredths n 1024 / 100 * 100 +
          (round_hundredths n 1024 / 10 % 10 * 10 + round_hundredths n 1024 % 10) =
          round_hundredths n 1024 := by omega
      have hq : ((round_hundredths n 1024 / 100 : Nat) : ℚ) * 100 +
          (((round_hundredths n 1024 / 10 % 10 : Nat) : ℚ) * 10 +
            ((round_hundredths n 1024 % 10 : Nat) : ℚ)) = (round_hundredths n 1024 : ℚ) := by
        exact_mod_cast hnat
      simp only [decimal_value, utoa_value, digits_value, toNat_digitChar _ h1,
        toNat_digitChar _ h2, List.length_cons, List.length_nil]
      rw [← hq]
      push_cast
      ring
    rw [hv, abs_le]
    have hloq : (1024 : ℚ) * (round_hundredths n 1024 : ℚ) ≤ 100 * (n : ℚ) + 512 := by
      exact_mod_cast hlo
    have hhiq : (100 : ℚ) * (n : ℚ) ≤ 1024 * (round_hundredths n 1024 : ℚ) + 512 := by
      exact_mod_cast hhi
    constructor <;> linarith

/-- C7: with a link that never comes up and a clock that reads 50 ms more at
each check, `connect_wifi` returns failure only at its 220th check, 11 s after
wake: the checks at the 10 s deadline (index 199) and one poll interval later
(index 200) do not end the loop, which is still running after 201 iterations. -/
theorem connect_wifi_polls_past_deadline (n : Nat) :
    connect_wifi WIFI_SSID WIFI_PASS never_joined (220 + n) Device.boot =
        some (false, { log := wifi_events 220, asleep := false }) ∧
      never_joined.clock 199 = MAX_CONN_TIME * 1000000 ∧
      never_joined.clock 200 = MAX_CONN_TIME * 1000000 + 50 * 1000 ∧
      connect_wifi WIFI_SSID WIFI_PASS never_joined 201 Device.boot = none ∧
      never_joined.clock 219 = 11000000 := by
  refine ⟨?_, by decide, by decide, ?_, by decide⟩
  · exact wifi_loop_fuel never_joined n 220 0 _ _ never_joined_220
  · rw [connect_wifi]
    exact never_joined_201

/-- C8: the one-byte response "0", read into a buffer that is followed in memory
by the character '7', is parsed by `atoi` as 7: the attempt counts as
acknowledged and `post_data` returns success, although the response text "0",
parsed on its own, gives 0 (and counts as failure when a NUL follows the
buffer). -/
theorem zero_reply_acknowledged :
    stale_digit.polls = ["0".toList] ∧ to_uint32 (atoi "0".toList) = 0 ∧
      (Attempt.reply "0").acked = false ∧
      stale_digit.response = 7 ∧ stale_digit.acked = true ∧
      post_data (fun _ => stale_digit) [] 3 Device.boot =
        some (true, { log := [Event.connect API_HOST 80, Event.println [], Event.stop],
                      asleep := false }) := by
  decide

/-- C9: every run of `post_data` (given fuel for its loop) consists either of
one successful attempt and no wait, or of a failed attempt, one `DELAY_ERROR`
wait and a second attempt with no wait after it. So there is one wait fewer than
there are attempts, the run never ends with a wait, a run in which all attempts
fail has `MAX_CONN_ATTEMPTS - 1 = 1` wait, and a run that succeeds ends with the
`stop` of the successful attempt. -/
theorem post_data_delays (server : Nat → Attempt) (data : List Char) (fuel : Nat)
    (d : Device) (hfuel : MAX_CONN_ATTEMPTS < fuel) (hd : d.asleep = false) :
    ∃ ok evs, post_data server data fuel d =
        some (ok, { log := d.log ++ evs, asleep := false }) ∧
      ((ok = true ∧ (server 0).acked = true ∧ evs = attempt_events (server 0) data) ∨
        (ok = (server 1).acked ∧ (server 0).acked = false ∧
          evs = attempt_events (server 0) data ++
            Event.delay DELAY_ERROR :: attempt_events (server 1) data)) ∧
      delays evs + 1 = connect_attempts evs ∧
      (∀ e, evs.getLast? = some e → e.isDelay = false) ∧
      (ok = false → delays evs = MAX_CONN_ATTEMPTS - 1 ∧ delays evs = 1) ∧
      (ok = true → evs.getLast? = some Event.stop) ∧ DELAY_ERROR = 2000 := by
  rw [post_data_run server data fuel d hfuel hd]
  by_cases h0 : (server 0).acked = true
  · refine ⟨true, attempt_events (server 0) data, by simp [h0], Or.inl ⟨rfl, h0, rfl⟩, ?_, ?_,
      by simp, ?_, rfl⟩
    · rw [delays_attempt, connect_attempts_attempt]
    · intro e he
      have hl := getLast_attempt (server 0) data []
      rw [List.nil_append, he] at hl
      cases hc : (server 0).connects <;> simp [hc] at hl <;> subst hl <;> rfl
    · intro _
      have hl := getLast_attempt (server 0) data []
      simpa [((acked_iff _).1 h0).1] using hl
  · have h0f : (server 0).acked = false := by simpa using h0
    refine ⟨(server 1).acked, attempt_events (server 0) data ++
      Event.delay DELAY_ERROR :: attempt_events (server 1) data, by simp [h0f],
      Or.inr ⟨rfl, h0f, rfl⟩, ?_, ?_, ?_, ?_, rfl⟩
    · rw [delays_two, connect_attempts_two]
    · intro e he
      have hl := getLast_attempt (server 1) data
        (attempt_events (server 0) data ++ [Event.delay DELAY_ERROR])
      rw [List.append_assoc, List.singleton_append, he] at hl
      cases hc : (server 1).connects <;> simp [hc] at hl <;> subst hl <;> rfl
    · intro _
      exact ⟨by rw [delays_two]; rfl, delays_two _ _ _⟩
    · intro h1
      have hl := getLast_attempt (server 1) data
        (attempt_events (server 0) data ++ [Event.delay DELAY_ERROR])
      simpa [((acked_iff _).1 h1).1] using hl

theorem post_data_delays_witness :
    ∃ ok evs, post_data refuse_then_zero [] 3 Device.boot =
        some (ok, { log := Device.boot.log ++ evs, asleep := false }) ∧
      ((ok = true ∧ (refuse_then_zero 0).acked = true ∧
          evs = attempt_events (refuse_then_zero 0) []) ∨
        (ok = (refuse_then_zero 1).acked ∧ (refuse_then_zero 0).acked = false ∧
          evs = attempt_events (refuse_then_zero 0) [] ++
            Event.delay DELAY_ERROR :: attempt_events (refuse_then_zero 1) [])) ∧
      delays evs + 1 = connect_attempts evs ∧
      (∀ e, evs.getLast? = some e → e.isDelay = false) ∧
      (ok = false → delays evs = MAX_CONN_ATTEMPTS - 1 ∧ delays evs = 1) ∧
      (ok = true → evs.getLast? = some Event.stop) ∧ DELAY_ERROR = 2000 :=
  post_data_delays refuse_then_zero [] 3 Device.boot (by decide) rfl

/-- C10: the text written to `status`, counted with its terminating NUL, is 13
bytes for the reading 3379 (3.30 V) and more than the 12 bytes of `status` for
every reading: `sprintf` writes past the end of the buffer. -/
theorem status_overflows :
    String.mk (status 3379) = "&field2=3.30" ∧ (status 3379).length + 1 = 13 ∧
      STATUS_SIZE = 12 ∧ ∀ n : Nat, STATUS_SIZE < (status n).length + 1 := by
  refine ⟨by decide, by decide, rfl, ?_⟩
  intro n
  have h := utoa_length (round_hundredths n 1024 / 100)
  rw [status_eq]
  simp only [ftoa2, STATUS_SIZE, List.length_append, List.length_cons, List.length_nil]
  have h8 : "&field2=".toList.length = 8 := by decide
  omega

end PinMon
